import Mathlib

/-!
Verification development for the WhatsApp chat sentiment-analysis repository.

The embedding models the two core subsystems:
  * the transcript preprocessing pipeline
    (backend/apps/chat_analysis/preprocessing.py, class WhatsAppChatPreprocessor), and
  * the multi-model sentiment fusion engine
    (backend/apps/sentiment/analyzers.py, class MultiModelSentimentAnalyzer and the
    rule-based analyzers VADERAnalyzer and TextBlobAnalyzer),
together with the sentiment-score collection step of the orchestration task
(backend/apps/chat_analysis/tasks.py).

Python floats are modelled exactly by rationals; the one operation that leaves the
rationals, the square root inside numpy.std, is modelled by Real.sqrt.  Calls into
external libraries (the VADER lexicon, TextBlob polarity, langdetect, urlextract) are
modelled as explicit function parameters: the code under verification never inspects
their internals, it only post-processes their numeric output.
-/

namespace WhatsApp

/-! ## Python string primitives used by the source -/

/-- Python whitespace characters recognised by str.strip and the regex class \s
(space, tab, newline, carriage return, vertical tab, form feed). -/
def isPySpace (c : Char) : Bool :=
  c = ' ' || c = '\t' || c = '\n' || c = '\r' || c = Char.ofNat 11 || c = Char.ofNat 12

/-- Python str.strip with no argument: remove leading and trailing whitespace. -/
def pyStripList (l : List Char) : List Char :=
  ((l.dropWhile isPySpace).reverse.dropWhile isPySpace).reverse

/-- Python str.strip on a String. -/
def pyStrip (s : String) : String :=
  String.mk (pyStripList s.data)

/-- Python str.strip with an explicit character set, used by
parse_datetime as date_str.strip(of the four characters space, dash, open and close
square bracket). -/
def pyStripChars (chars : List Char) (s : String) : String :=
  String.mk (((s.data.dropWhile (chars.contains ·)).reverse.dropWhile (chars.contains ·)).reverse)

/-- Boolean prefix test on character lists (pattern first, text second). -/
def leadsWith : List Char → List Char → Bool
  | [], _ => true
  | _ :: _, [] => false
  | a :: as, b :: bs => a == b && leadsWith as bs

/-- Boolean substring containment on character lists: the Python operator
pattern in text (pattern first, text second). -/
def containsSubList (p : List Char) : List Char → Bool
  | [] => p.isEmpty
  | c :: rest => leadsWith p (c :: rest) || containsSubList p rest

/-- Python substring operator on Strings: containsSub s p means p in s. -/
def containsSub (s p : String) : Bool :=
  containsSubList p.data s.data

/-- ASCII lowercase of a string, modelling Python str.lower on the ASCII texts the
system patterns consist of. -/
def lowerStr (s : String) : String :=
  String.mk (s.data.map Char.toLower)

/-- Python s.split(sep, 1) for a nonempty separator: split at the first occurrence,
returning none when the separator does not occur. -/
def splitOnceList (sep : List Char) : List Char → Option (List Char × List Char)
  | [] => none
  | c :: rest =>
    if leadsWith sep (c :: rest) then
      some ([], (c :: rest).drop sep.length)
    else
      match splitOnceList sep rest with
      | some (l, r) => some (c :: l, r)
      | none => none

/-- Numeric value of a digit run. -/
def natOfDigits (l : List Char) : Nat :=
  l.foldl (fun a c => 10 * a + (c.toNat - 48)) 0

/-! ## Datetime parsing (parse_datetime, preprocessing.py lines 103-132)

The source tries six strptime format strings in a fixed order and returns the first
success, or None when all fail.  CPython strptime compiles each directive to a
regular expression anchored at the start of the string and rejects unconverted
trailing data; because every numeric directive in these six formats is followed by a
non-digit literal (or the end of the string), the backtracking regex semantics
coincide with maximal-munch digit runs, which is what the field parsers below
implement.  The final construction of datetime(...) additionally validates the day
against the month length and requires year at least 1; a failure there is a
ValueError caught by the source, which then tries the next format. -/

structure DateTime where
  year : Nat
  month : Nat
  day : Nat
  hour : Nat
  minute : Nat
  second : Nat
deriving DecidableEq

/-- Maximal run of ASCII digits at the front of the input. -/
def digitRun (cs : List Char) : List Char :=
  cs.takeWhile Char.isDigit

/-- Numeric field of the strptime directive %m: one or two digits, value 1..12. -/
def parseMonthField (cs : List Char) : Option (Nat × List Char) :=
  let r := digitRun cs
  if 1 ≤ r.length ∧ r.length ≤ 2 ∧ 1 ≤ natOfDigits r ∧ natOfDigits r ≤ 12 then
    some (natOfDigits r, cs.drop r.length)
  else none

/-- Numeric field of the strptime directive %d: one or two digits with value 1..31,
or (last regex alternative) a space followed by a single digit 1..9. -/
def parseDayField (cs : List Char) : Option (Nat × List Char) :=
  let r := digitRun cs
  if r.length = 0 then
    match cs with
    | ' ' :: d :: rest =>
      if d.isDigit ∧ d ≠ '0' then some (d.toNat - 48, rest) else none
    | _ => none
  else if r.length ≤ 2 ∧ 1 ≤ natOfDigits r ∧ natOfDigits r ≤ 31 then
    some (natOfDigits r, cs.drop r.length)
  else none

/-- Numeric field of the strptime directive %H: one or two digits, value 0..23. -/
def parseHourField (cs : List Char) : Option (Nat × List Char) :=
  let r := digitRun cs
  if 1 ≤ r.length ∧ r.length ≤ 2 ∧ natOfDigits r ≤ 23 then
    some (natOfDigits r, cs.drop r.length)
  else none

/-- Numeric field of the strptime directives %M and %S: one or two digits,
value 0..59. -/
def parseMinSecField (cs : List Char) : Option (Nat × List Char) :=
  let r := digitRun cs
  if 1 ≤ r.length ∧ r.length ≤ 2 ∧ natOfDigits r ≤ 59 then
    some (natOfDigits r, cs.drop r.length)
  else none

/-- Year field: %Y is exactly four digits; %y is exactly two digits with the
CPython century pivot (00-68 maps to 2000-2068, 69-99 to 1969-1999). -/
def parseYearField (twoDigit : Bool) (cs : List Char) : Option (Nat × List Char) :=
  let r := digitRun cs
  if twoDigit then
    if r.length = 2 then
      let v := natOfDigits r
      some (if v ≤ 68 then 2000 + v else 1900 + v, cs.drop r.length)
    else none
  else
    if r.length = 4 then some (natOfDigits r, cs.drop r.length) else none

/-- Literal character in a strptime format. -/
def matchLit (c : Char) : List Char → Option (List Char)
  | x :: rest => if x = c then some rest else none
  | [] => none

/-- Whitespace in a strptime format matches one or more whitespace characters. -/
def matchSpaces1 (cs : List Char) : Option (List Char) :=
  match cs with
  | c :: rest => if isPySpace c then some (rest.dropWhile isPySpace) else none
  | [] => none

/-- Gregorian leap year, as validated by datetime. -/
def isLeapYear (y : Nat) : Bool :=
  y % 4 = 0 && (y % 100 ≠ 0 || y % 400 = 0)

/-- Length of a month, as validated by datetime. -/
def daysInMonth (y m : Nat) : Nat :=
  if m = 1 ∨ m = 3 ∨ m = 5 ∨ m = 7 ∨ m = 8 ∨ m = 10 ∨ m = 12 then 31
  else if m = 4 ∨ m = 6 ∨ m = 9 ∨ m = 11 then 30
  else if isLeapYear y then 29 else 28

/-- Parser for one of the six strptime formats of parse_datetime.  All six share the
shape number/number/year, whitespace, hour:minute with optional :second; they differ
in day-month order, year width, and the presence of seconds. -/
def parseDateFmt (dayFirst twoDigitYear withSeconds : Bool) (cs : List Char) :
    Option DateTime := do
  let (f1, r1) ← if dayFirst then parseDayField cs else parseMonthField cs
  let r2 ← matchLit '/' r1
  let (f2, r3) ← if dayFirst then parseMonthField r2 else parseDayField r2
  let r4 ← matchLit '/' r3
  let (y, r5) ← parseYearField twoDigitYear r4
  let r6 ← matchLit ',' r5
  let r7 ← matchSpaces1 r6
  let (h, r8) ← parseHourField r7
  let r9 ← matchLit ':' r8
  let (mi, r10) ← parseMinSecField r9
  let (sec, rEnd) ←
    if withSeconds then do
      let r11 ← matchLit ':' r10
      let (s, r12) ← parseMinSecField r11
      pure (s, r12)
    else pure (0, r10)
  if rEnd = [] then
    let d := if dayFirst then f1 else f2
    let m := if dayFirst then f2 else f1
    if 1 ≤ y ∧ d ≤ daysInMonth y m then
      some ⟨y, m, d, h, mi, sec⟩
    else none
  else none

/-- Model of WhatsAppChatPreprocessor.parse_datetime: strip the characters
space, dash and square brackets from both ends, then try the six formats
d/m/Y, m/d/Y, d/m/y, m/d/y, d/m/Y with seconds, m/d/Y with seconds, in
that order; the first success wins and total failure yields none. -/
def parseDatetime (dateStr : String) : Option DateTime :=
  let cs := (pyStripChars [' ', '-', '[', ']'] dateStr).data
  (parseDateFmt true false false cs) <|>
  (parseDateFmt false false false cs) <|>
  (parseDateFmt true true false cs) <|>
  (parseDateFmt false true false cs) <|>
  (parseDateFmt true false true cs) <|>
  (parseDateFmt false false true cs)

/-! ## Export-format patterns and record extraction
(detect_format and extract_messages_and_dates, preprocessing.py lines 30-101)

The preprocessor holds three regex patterns keyed android, ios, web; the android and
web patterns are the identical string.  Each pattern is a timestamp prefix with one
capture group around the date part.  extract_messages_and_dates runs re.split
(which, because of the capture group, interleaves the captured dates with the text
pieces), drops the first piece, runs re.findall for the dates, and truncates both
lists to the shorter length.  The matcher functions below decide whether a match
begins at the current position and return the captured group together with the rest
of the input after the whole match; every numeric subpattern is followed by a
non-digit literal, so greedy backtracking again coincides with maximal munch. -/

inductive ExportFormat
  | android
  | ios
  | web
deriving DecidableEq

/-- Digit run of bounded length, shared by the pattern subexpressions of the form
backslash-d in braces. -/
def matchDigits (lo hi : Nat) (cs : List Char) : Option (List Char × List Char) :=
  let r := digitRun cs
  if lo ≤ r.length ∧ r.length ≤ hi then some (r, cs.drop r.length) else none

/-- Single regex whitespace character \s. -/
def matchOneSpace : List Char → Option (List Char)
  | c :: rest => if isPySpace c then some rest else none
  | [] => none

/-- Token of the two export-format regex patterns: a bounded digit run, a literal
character, or a single whitespace character. -/
inductive PatTok
  | num (lo hi : Nat)
  | lit (c : Char)
  | sp
deriving DecidableEq

/-- Sequential interpretation of a token list, returning the rest of the input
after a successful match anchored at the current position. -/
def runToks : List PatTok → List Char → Option (List Char)
  | [], cs => some cs
  | PatTok.num lo hi :: ts, cs =>
    match matchDigits lo hi cs with
    | some (_, r) => runToks ts r
    | none => none
  | PatTok.lit c :: ts, cs =>
    match matchLit c cs with
    | some r => runToks ts r
    | none => none
  | PatTok.sp :: ts, cs =>
    match matchOneSpace cs with
    | some r => runToks ts r
    | none => none

/-- Token sequence of the capture group shared by all three patterns: digits 1-2,
slash, digits 1-2, slash, digits 2-4, comma, \s, digits 1-2, colon, digits 2,
optionally followed by colon and digits 2 for the ios seconds field. -/
def dateGroupToks (withSeconds : Bool) : List PatTok :=
  [PatTok.num 1 2, PatTok.lit '/', PatTok.num 1 2, PatTok.lit '/', PatTok.num 2 4,
   PatTok.lit ',', PatTok.sp, PatTok.num 1 2, PatTok.lit ':', PatTok.num 2 2] ++
  (if withSeconds then [PatTok.lit ':', PatTok.num 2 2] else [])

/-- Matcher for the android (and web) pattern: the date group then \s dash \s;
the capture group extends through the minutes.  Returns (captured group, rest
after the whole match) when a match starts at the current position. -/
def matchAndroid (cs : List Char) : Option (List Char × List Char) :=
  match runToks (dateGroupToks false) cs with
  | some r10 =>
    match runToks [PatTok.sp, PatTok.lit '-', PatTok.sp] r10 with
    | some r13 => some (cs.take (cs.length - r10.length), r13)
    | none => none
  | none => none

/-- Matcher for the ios pattern: open bracket, the date group with a seconds
field, close bracket, \s; the capture group is the part inside the brackets. -/
def matchIos (cs : List Char) : Option (List Char × List Char) :=
  match matchLit '[' cs with
  | some r0 =>
    match runToks (dateGroupToks true) r0 with
    | some r12 =>
      match runToks [PatTok.lit ']', PatTok.sp] r12 with
      | some r14 => some (r0.take (r0.length - r12.length), r14)
      | none => none
    | none => none
  | none => none

/-- Pattern selected for a format, as patterns.get does in the source; android and
web share one pattern string. -/
def matcherFor : ExportFormat → (List Char → Option (List Char × List Char))
  | ExportFormat.android => matchAndroid
  | ExportFormat.ios => matchIos
  | ExportFormat.web => matchAndroid

/-- Left-to-right scan for non-overlapping matches, as re.findall and re.split
perform it.  Returns the list of (text before the match, captured group) pairs and
the trailing text after the last match.  The fuel argument dominates the input
length; both patterns consume at least one character per match. -/
def reScanFuel (m : List Char → Option (List Char × List Char)) :
    Nat → List Char → List Char → List (List Char × List Char) × List Char
  | 0, cs, acc => ([], acc.reverse ++ cs)
  | _ + 1, [], acc => ([], acc.reverse)
  | fuel + 1, c :: rest, acc =>
    match m (c :: rest) with
    | some (g, after) =>
      let (pairs, trailing) := reScanFuel m fuel after []
      ((acc.reverse, g) :: pairs, trailing)
    | none => reScanFuel m fuel rest (c :: acc)

/-- Scan of a whole string. -/
def reScan (m : List Char → Option (List Char × List Char)) (s : String) :
    List (List Char × List Char) × List Char :=
  reScanFuel m (s.data.length + 1) s.data []

/-- Model of re.findall(pattern, text): the captured groups in order. -/
def reFindall (fmt : ExportFormat) (s : String) : List String :=
  ((reScan (matcherFor fmt) s).1).map (fun p => String.mk p.2)

/-- Flattening of the scan into the pieces re.split returns when the pattern has
one capture group: before each match its preceding text then its group. -/
def interleavePairs : List (List Char × List Char) → List (List Char)
  | [] => []
  | (pre, g) :: ps => pre :: g :: interleavePairs ps

/-- Model of re.split(pattern, text) for a pattern with one capture group:
text pieces and captured groups interleaved, ending with the trailing piece. -/
def reSplitParts (fmt : ExportFormat) (s : String) : List String :=
  let (pairs, trailing) := reScan (matcherFor fmt) s
  (interleavePairs pairs ++ [trailing]).map String.mk

/-- Model of re.search over the first n characters: does a match start anywhere in
the truncated text. -/
def reSearchIn (fmt : ExportFormat) (n : Nat) (s : String) : Bool :=
  !((reScanFuel (matcherFor fmt) (n + 1) (s.data.take n) []).1.isEmpty)

/-- Model of detect_format: try the patterns in dictionary order android, ios, web
over the first 1000 characters; the first that matches wins and android is the
fallback. -/
def detectFormat (s : String) : ExportFormat :=
  if reSearchIn ExportFormat.android 1000 s then ExportFormat.android
  else if reSearchIn ExportFormat.ios 1000 s then ExportFormat.ios
  else if reSearchIn ExportFormat.web 1000 s then ExportFormat.web
  else ExportFormat.android

/-- Model of extract_messages_and_dates: messages is re.split with the first piece
dropped, dates is re.findall, and both lists are truncated to the shorter length. -/
def extractMessagesAndDates (s : String) (fmt : ExportFormat) :
    List String × List String :=
  let messages := (reSplitParts fmt s).drop 1
  let dates := reFindall fmt s
  let minLength := min messages.length dates.length
  (messages.take minLength, dates.take minLength)

/-! ## Speaker extraction and message classification
(extract_user_and_message, is_system_message and the preprocess loop,
preprocessing.py lines 134-164 and 257-338) -/

/-- Characters kept by the username cleanup regex that deletes everything outside
word characters, whitespace and dash (ASCII model of \w, \s and the dash). -/
def isUserKeptChar (c : Char) : Bool :=
  c.isAlphanum || c = '_' || isPySpace c || c = '-'

/-- Model of re.sub removing every occurrence of a plus sign followed by one or
more digits (leftmost, non-overlapping, greedy digit run). -/
def removePlusDigits : List Char → List Char
  | [] => []
  | '+' :: rest =>
    if (rest.takeWhile Char.isDigit).length = 0 then
      '+' :: removePlusDigits rest
    else
      removePlusDigits (rest.dropWhile Char.isDigit)
  | c :: rest => c :: removePlusDigits rest
termination_by l => l.length
decreasing_by
  all_goals simp_wf
  all_goals first
    | exact Nat.lt_succ_of_le (List.dropWhile_sublist _).length_le
    | exact Nat.lt_succ_self _

/-- Model of extract_user_and_message: split at the first colon-space; when it is
present the first part becomes the username (stripped, phone-number runs removed,
non-word punctuation removed) and the second the stripped message body; when it is
absent the whole stripped chunk is the body and the speaker is the sentinel
System. -/
def extractUserAndMessage (messageText : String) : String × String :=
  match splitOnceList [':', ' '] messageText.data with
  | some (u, m) =>
    let username := pyStripList u
    let step1 := pyStripList (removePlusDigits username)
    let step2 := pyStripList (step1.filter isUserKeptChar)
    (String.mk step2, String.mk (pyStripList m))
  | none => ("System", pyStrip messageText)

/-- Catalog of system-phrase patterns from the source, matched as lowercase
substrings by is_system_message.  The invite-link entry keeps the backslash that
the raw Python string literal contains. -/
def systemPatterns : List String :=
  ["Messages and calls are end-to-end encrypted",
   "created group",
   "added you",
   "left",
   "joined using this group\\\x27s invite link",
   "changed the group description",
   "changed the subject",
   "You deleted this message",
   "This message was deleted",
   "<Media omitted>",
   "image omitted",
   "video omitted",
   "audio omitted",
   "document omitted",
   "Contact card omitted",
   "Location:"]

/-- Model of is_system_message: some catalog pattern occurs, case-insensitively,
as a substring of the message. -/
def isSystemMessage (message : String) : Bool :=
  systemPatterns.any (fun p => containsSub (lowerStr message) (lowerStr p))

inductive MsgType
  | text
  | media
  | system
deriving DecidableEq

/-- Message-kind decision of the preprocess loop: system when is_system_message
matches, else media when the literal media marker occurs or the lowercased body
contains the word omitted, else text. -/
def classifyType (body : String) : MsgType :=
  if isSystemMessage body then MsgType.system
  else if containsSub body "<Media omitted>" || containsSub (lowerStr body) "omitted" then
    MsgType.media
  else MsgType.text

/-- Record assembled by the preprocess loop for one surviving message.  The fields
cleaned_text, language and the feature bundle are further total computations on
body and timestamp (partly through external libraries) and do not influence the
control flow of the loop, so the record keeps the fields the verified claims
mention. -/
structure Row where
  timestamp : DateTime
  username : String
  messageType : MsgType
  originalText : String
deriving DecidableEq

/-- Body of the preprocess loop for one (message text, date string) pair: drop the
pair when the timestamp fails to parse or the body strips to empty, otherwise
classify the kind, force the username to System for system messages, and record
the row. -/
def processPair (p : String × String) : Option Row :=
  match parseDatetime p.2 with
  | none => none
  | some ts =>
    let um := extractUserAndMessage p.1
    if pyStrip um.2 = "" then none
    else
      let mtype := classifyType um.2
      let uname := if isSystemMessage um.2 then "System" else um.1
      some ⟨ts, uname, mtype, um.2⟩

/-- Rows accumulated by the loop over the zipped message and date lists. -/
def processedRows (pairs : List (String × String)) : List Row :=
  pairs.filterMap processPair

/-- Zipped (message, date) pairs a transcript yields. -/
def pairsOf (text : String) : List (String × String) :=
  let fmt := detectFormat text
  let md := extractMessagesAndDates text fmt
  md.1.zip md.2

/-- Model of WhatsAppChatPreprocessor.preprocess up to the success signal: an
error when extraction yields no message chunks, an error when no row survives the
loop, and otherwise the surviving rows.  The surrounding try-except of the source
converts each raised error into a result dictionary with success False, which the
Except value models. -/
def preprocessFull (text : String) : Except String (List Row) :=
  let fmt := detectFormat text
  let md := extractMessagesAndDates text fmt
  match md.1 with
  | [] => Except.error "No messages found in the chat file"
  | _ :: _ =>
    match processedRows (md.1.zip md.2) with
    | [] => Except.error "No valid messages found after preprocessing"
    | r :: rs => Except.ok (r :: rs)

/-- Success flag of the preprocess result dictionary. -/
def preprocessSuccess (text : String) : Bool :=
  match preprocessFull text with
  | Except.ok _ => true
  | Except.error _ => false

/-! ## Feature extraction (extract_features, preprocessing.py lines 220-236)

The emoji counts scan explicit code-point ranges given in the source; the URL
counts call the external urlextract library and are not modelled.  All counts are
computed on the original body. -/

/-- Membership in the emoji code-point ranges of the source regex. -/
def isEmojiChar (c : Char) : Bool :=
  (0x1F600 ≤ c.toNat && c.toNat ≤ 0x1F64F) ||
  (0x1F300 ≤ c.toNat && c.toNat ≤ 0x1F5FF) ||
  (0x1F680 ≤ c.toNat && c.toNat ≤ 0x1F6FF) ||
  (0x1F1E0 ≤ c.toNat && c.toNat ≤ 0x1F1FF)

/-- Python str.split with no argument: whitespace-separated words, empty pieces
discarded. -/
def pyWords : List Char → List String
  | [] => []
  | c :: rest =>
    if isPySpace c then pyWords rest
    else
      let w := c :: rest.takeWhile (fun x => !isPySpace x)
      String.mk w :: pyWords (rest.dropWhile (fun x => !isPySpace x))
termination_by l => l.length
decreasing_by
  all_goals simp_wf
  all_goals first
    | exact Nat.lt_succ_of_le (List.dropWhile_sublist _).length_le
    | exact Nat.lt_succ_self _

/-- Caps ratio of extract_features: uppercase characters divided by the total
character count of the message, and 0 for the empty message. -/
def capsRatio (message : String) : ℚ :=
  if message = "" then 0
  else ((message.data.filter Char.isUpper).length : ℚ) / (message.data.length : ℚ)

/-- Feature bundle of extract_features restricted to the counts computable without
the urlextract library. -/
structure Features where
  wordCount : Nat
  charCount : Nat
  emojiCount : Nat
  containsEmoji : Bool
  exclamationCount : Nat
  questionCount : Nat
  capsRatioValue : ℚ
deriving DecidableEq

/-- Model of extract_features on the original message body. -/
def extractFeatures (message : String) : Features :=
  { wordCount := (pyWords message.data).length
    charCount := message.data.length
    emojiCount := (message.data.filter isEmojiChar).length
    containsEmoji := message.data.any isEmojiChar
    exclamationCount := (message.data.filter (· = '!')).length
    questionCount := (message.data.filter (· = '?')).length
    capsRatioValue := capsRatio message }

/-! ## Participant anonymization
(anonymize_participants, preprocessing.py lines 238-249) -/

/-- Reserved labels pass through unanonymized; the check lowercases first. -/
def isReservedLabel (p : String) : Bool :=
  lowerStr p = "system" || lowerStr p = "group notification"

/-- Zero-padded two-digit rendering of the Python format directive 02d. -/
def pad2 (n : Nat) : String :=
  if n < 10 then "0" ++ toString n else toString n

/-- Anonymized identifier User_NN. -/
def userTag (n : Nat) : String :=
  "User_" ++ pad2 n

/-- Lexicographic comparison of character lists by code point, the order Python
uses to compare strings. -/
def listLeb : List Char → List Char → Bool
  | [], _ => true
  | _ :: _, [] => false
  | a :: as, b :: bs =>
    if a.toNat < b.toNat then true
    else if b.toNat < a.toNat then false
    else listLeb as bs

/-- Python string order as a decidable relation. -/
def pyStrLe (a b : String) : Prop :=
  listLeb a.data b.data = true

instance : DecidableRel pyStrLe := fun a b => by
  unfold pyStrLe
  infer_instance

/-- Sorted deduplicated participant list, the Python expression
sorted(set(participants)). -/
def sortedSet (participants : List String) : List String :=
  List.insertionSort pyStrLe participants.dedup

/-- Model of anonymize_participants: enumerate the sorted deduplicated labels;
reserved labels map to themselves and every other label at enumeration index i
maps to User_ with i+1 zero-padded.  The association list is keyed by distinct
labels, so it models the returned dictionary faithfully. -/
def anonymizeParticipants (participants : List String) : List (String × String) :=
  (sortedSet participants).enum.map
    (fun ip => (ip.2, if isReservedLabel ip.2 then ip.2 else userTag (ip.1 + 1)))

/-- Participant usernames whose messages the orchestration task collects sentiment
scores for: the keys of the anonymization mapping except the System sentinel
(tasks.py lines 59-76 and 104-148). -/
def sentimentParticipants (mapping : List (String × String)) : List String :=
  (mapping.filter (fun kv => kv.1 ≠ "System")).map Prod.fst

/-! ## Sentiment analyzers (analyzers.py)

Each analyzer preprocesses the text with str.strip, returns the neutral
zero-confidence verdict on empty input, and otherwise post-processes the numeric
output of its external library: VADER maps the compound score to a label with the
0.05 cutoffs of lines 107-112, TextBlob maps the polarity to a label with the 0.1
cutoffs of lines 161-166.  The library calls themselves (the VADER lexicon and the
TextBlob polarity and subjectivity) are passed in as functions. -/

inductive Label
  | positive
  | negative
  | neutral
deriving DecidableEq

structure SentimentResult where
  score : ℚ
  label : Label
  confidence : ℚ
deriving DecidableEq

/-- Label decision of VADERAnalyzer.analyze_sentiment from the compound score:
at least 0.05 is positive, at most -0.05 is negative, otherwise neutral. -/
def vaderLabel (compound : ℚ) : Label :=
  if compound ≥ 5 / 100 then Label.positive
  else if compound ≤ -(5 / 100) then Label.negative
  else Label.neutral

/-- Model of VADERAnalyzer.analyze_sentiment given the lexicon compound score as a
function of the stripped text; the confidence is the absolute compound score. -/
def vaderAnalyze (polarityScores : String → ℚ) (text : String) : SentimentResult :=
  let t := pyStrip text
  if t = "" then ⟨0, Label.neutral, 0⟩
  else
    let c := polarityScores t
    ⟨c, vaderLabel c, |c|⟩

/-- Label decision of TextBlobAnalyzer.analyze_sentiment from the polarity:
strictly above 0.1 is positive, strictly below -0.1 is negative, otherwise
neutral. -/
def textblobLabel (polarity : ℚ) : Label :=
  if polarity > 1 / 10 then Label.positive
  else if polarity < -(1 / 10) then Label.negative
  else Label.neutral

/-- Model of TextBlobAnalyzer.analyze_sentiment given the library output pair
(polarity, subjectivity) as a function of the stripped text; the subjectivity is
reported as the confidence. -/
def textblobAnalyze (sentimentOf : String → ℚ × ℚ) (text : String) : SentimentResult :=
  let t := pyStrip text
  if t = "" then ⟨0, Label.neutral, 0⟩
  else
    let p := (sentimentOf t).1
    ⟨p, textblobLabel p, (sentimentOf t).2⟩

/-- Pool member of MultiModelSentimentAnalyzer: a name, the supported-language
list of the BaseSentimentAnalyzer constructor, and the analyze_sentiment
function. -/
structure PoolAnalyzer where
  name : String
  supportedLanguages : List String
  analyze : String → SentimentResult

/-- Model of BaseSentimentAnalyzer.is_language_supported. -/
def isLangSupported (a : PoolAnalyzer) (language : String) : Bool :=
  a.supportedLanguages.contains language

/-- Baseline pool in registration order, as _initialize_analyzers builds it
without the optional transformer: VADER (languages en and hinglish) then TextBlob
(language en). -/
def mkBaselinePool (vaderLib : String → ℚ) (textblobLib : String → ℚ × ℚ) :
    List PoolAnalyzer :=
  [⟨"vader", ["en", "hinglish"], vaderAnalyze vaderLib⟩,
   ⟨"textblob", ["en"], textblobAnalyze textblobLib⟩]

/-! ## Fusion engine (MultiModelSentimentAnalyzer.analyze_text, lines 473-544)

The ensemble score is numpy.mean of the contributing scores, the ensemble
confidence is one minus the clipped numpy population standard deviation, the
ensemble label is the Python expression max over set(labels) keyed by list count,
and model agreement holds when all contributing labels coincide.  Python iterates
a set of strings in hash order, which is fixed within one interpreter run but
unrelated to the order the labels were produced in; the fusion functions therefore
take this iteration order as an explicit parameter, a list of the label values. -/

/-- Verdicts of the pool members supporting the language of the message, in
registration order, as the loop of analyze_text collects them (every
analyze_sentiment result carries a score key, so every supported analyzer
contributes). -/
def contributingResults (pool : List PoolAnalyzer) (text language : String) :
    List SentimentResult :=
  (pool.filter (fun a => isLangSupported a language)).map (fun a => a.analyze text)

/-- Mean of a list of rationals, numpy.mean on exact inputs. -/
def npMean (l : List ℚ) : ℚ :=
  l.sum / l.length

/-- Population variance, the square of numpy.std on exact inputs. -/
def npVariance (l : List ℚ) : ℚ :=
  (l.map (fun x => (x - npMean l) ^ 2)).sum / l.length

/-- Population standard deviation, numpy.std with the default ddof of zero. -/
noncomputable def npStd (l : List ℚ) : ℝ :=
  Real.sqrt (npVariance l)

/-- Python iteration of set(labels) in the hash order sigma: the label values in
sigma order, restricted to those present. -/
def pySetIter (sigma labels : List Label) : List Label :=
  sigma.filter (fun l => decide (l ∈ labels))

/-- Update step of Python max with a key function: a later candidate replaces the
current one only when its key is strictly greater. -/
def pyMaxStep (labels : List Label) (acc : Option Label) (c : Label) : Option Label :=
  match acc with
  | none => some c
  | some b => if labels.count c > labels.count b then some c else some b

/-- Python max with a key function over the candidate list: the first candidate
attaining the maximal count in the label list. -/
def maxByCountFirst (labels : List Label) (candidates : List Label) : Option Label :=
  candidates.foldl (pyMaxStep labels) none

/-- Ensemble label of analyze_text, the expression max over set of the collected
labels keyed by their count, with sigma the set iteration order. -/
def ensembleLabelWith (sigma labels : List Label) : Option Label :=
  maxByCountFirst labels (pySetIter sigma labels)

/-- Value stored under the ensemble_sentiment key.  The model_agreement field is
optional because the empty result of _empty_result carries no such key. -/
structure EnsembleSentiment where
  score : ℚ
  label : Label
  confidence : ℝ
  modelAgreement : Option Bool

/-- Ensemble branch of analyze_text: the empty-result dictionary for empty input
(score 0, neutral, confidence 0, no agreement key), no ensemble verdict at all
when no scorer contributes, and otherwise the fused verdict with mean score,
count-majority label, confidence one minus the clipped standard deviation, and
agreement if and only if exactly one distinct label was produced. -/
noncomputable def analyzeTextEnsemble (sigma : List Label) (pool : List PoolAnalyzer)
    (text language : String) : Option EnsembleSentiment :=
  if text = "" then some ⟨0, Label.neutral, 0, none⟩
  else
    match contributingResults pool text language with
    | [] => none
    | r :: rs =>
      let scores := (r :: rs).map SentimentResult.score
      let labels := (r :: rs).map SentimentResult.label
      some ⟨npMean scores,
            (ensembleLabelWith sigma labels).getD Label.neutral,
            1 - min (npStd scores) 1,
            some (labels.dedup.length = 1)⟩

/-! ## Spec-side comparison definitions and concrete instances -/

/-- Spec-side caps-ratio denominator for comparison with the code: the character
count of the body excluding case-insensitive characters, that is counting only
cased (letter) characters. -/
def capsRatioCased (message : String) : ℚ :=
  if message = "" then 0
  else ((message.data.filter Char.isUpper).length : ℚ) /
    ((message.data.filter (fun c => c.isUpper || c.isLower)).length : ℚ)

/-- Population standard deviation in the mean-of-squares form, stated
independently of the numpy mean-of-squared-deviations computation for
comparison. -/
noncomputable def popStddevSpec (l : List ℚ) : ℝ :=
  Real.sqrt (((l.map (fun x => x ^ 2)).sum / l.length - (l.sum / l.length) ^ 2 : ℚ))

/-- Baseline pool with constant-zero library outputs, used to instantiate
statements at concrete inputs. -/
def zeroPool : List PoolAnalyzer :=
  mkBaselinePool (fun _ => 0) (fun _ => (0, 0))

/-- All six iteration orders of the three label values. -/
def allLabelOrders : List (List Label) :=
  [[Label.positive, Label.negative, Label.neutral],
   [Label.positive, Label.neutral, Label.negative],
   [Label.negative, Label.positive, Label.neutral],
   [Label.negative, Label.neutral, Label.positive],
   [Label.neutral, Label.positive, Label.negative],
   [Label.neutral, Label.negative, Label.positive]]

/-! ## Helper lemmas -/

lemma string_data_ne_nil {m : String} (h : m ≠ "") : m.data ≠ [] := by
  intro hd
  apply h
  cases m
  simp_all

lemma processedRows_ne_nil_iff (pairs : List (String × String)) :
    processedRows pairs ≠ [] ↔ ∃ p ∈ pairs, (processPair p).isSome = true := by
  unfold processedRows
  rw [Ne, List.filterMap_eq_nil_iff]
  push_neg
  simp [Option.isSome_iff_ne_none]

lemma char_toNat_inj {a b : Char} (h : a.toNat = b.toNat) : a = b := by
  exact_mod_cast Char.ofNat_toNat a ▸ Char.ofNat_toNat b ▸ congrArg Char.ofNat h

lemma listLeb_total : ∀ a b : List Char, listLeb a b = true ∨ listLeb b a = true
  | [], _ => Or.inl rfl
  | _ :: _, [] => Or.inr rfl
  | a :: as, b :: bs => by
    unfold listLeb
    rcases Nat.lt_trichotomy a.toNat b.toNat with h | h | h
    · left
      simp [h]
    · have hne : ¬a.toNat < b.toNat := by omega
      have hne2 : ¬b.toNat < a.toNat := by omega
      rcases listLeb_total as bs with ih | ih <;> simp [hne, hne2, ih]
    · right
      simp [h]

lemma listLeb_trans :
    ∀ a b c : List Char, listLeb a b = true → listLeb b c = true → listLeb a c = true
  | [], _, _, _, _ => rfl
  | a :: as, [], c, h, _ => by simp [listLeb] at h
  | a :: as, b :: bs, [], _, h2 => by simp [listLeb] at h2
  | a :: as, b :: bs, c :: cs, h1, h2 => by
    unfold listLeb at h1 h2 ⊢
    by_cases hab : a.toNat < b.toNat
    · by_cases hbc : b.toNat < c.toNat
      · have hac : a.toNat < c.toNat := by omega
        simp [hac]
      · by_cases hcb : c.toNat < b.toNat
        · simp [hbc, hcb] at h2
        · have hac : a.toNat < c.toNat := by omega
          simp [hac]
    · by_cases hba : b.toNat < a.toNat
      · simp [hab, hba] at h1
      · by_cases hbc : b.toNat < c.toNat
        · have hac : a.toNat < c.toNat := by omega
          simp [hac]
        · by_cases hcb : c.toNat < b.toNat
          · simp [hbc, hcb] at h2
          · have hac : ¬a.toNat < c.toNat := by omega
            have hca : ¬c.toNat < a.toNat := by omega
            simp [hab, hba] at h1
            simp [hbc, hcb] at h2
            simp only [hac, hca, if_false, if_neg]
            exact listLeb_trans as bs cs h1 h2

lemma listLeb_antisymm :
    ∀ a b : List Char, listLeb a b = true → listLeb b a = true → a = b
  | [], [], _, _ => rfl
  | [], _ :: _, _, h2 => by simp [listLeb] at h2
  | _ :: _, [], h1, _ => by simp [listLeb] at h1
  | a :: as, b :: bs, h1, h2 => by
    unfold listLeb at h1 h2
    by_cases hab : a.toNat < b.toNat
    · have hba : ¬b.toNat < a.toNat := by omega
      simp [hab, hba] at h2
    · by_cases hba : b.toNat < a.toNat
      · simp [hab, hba] at h1
      · simp [hab, hba] at h1 h2
        have : a = b := char_toNat_inj (by omega)
        rw [this, listLeb_antisymm as bs h1 h2]

instance : IsTotal String pyStrLe :=
  ⟨fun a b => listLeb_total a.data b.data⟩

instance : IsTrans String pyStrLe :=
  ⟨fun _ _ _ h1 h2 => listLeb_trans _ _ _ h1 h2⟩

instance : IsAntisymm String pyStrLe :=
  ⟨fun a b h1 h2 => by
    cases a
    cases b
    exact congrArg String.mk (listLeb_antisymm _ _ h1 h2)⟩

lemma sortedSet_congr {xs ys : List String} (h : xs.toFinset = ys.toFinset) :
    sortedSet xs = sortedSet ys := by
  have hperm : List.Perm xs.dedup ys.dedup := by
    have h1 : (xs.dedup : Multiset String) = (ys.dedup : Multiset String) := by
      rw [← List.toFinset_val, ← List.toFinset_val, h]
    exact Multiset.coe_eq_coe.mp h1
  exact List.eq_of_perm_of_sorted
    ((List.perm_insertionSort pyStrLe _).trans
      (hperm.trans (List.perm_insertionSort pyStrLe _).symm))
    (List.sorted_insertionSort pyStrLe _)
    (List.sorted_insertionSort pyStrLe _)

/-! ## Claim theorems -/

/-- C10 counterexample: on the body A1 the code computes caps_ratio one half,
dividing by the full character count, while the claimed denominator that excludes
the case-insensitive digit would give one. -/
theorem caps_ratio_denominator_cex :
    capsRatio "A1" = 1 / 2 ∧ capsRatioCased "A1" = 1 ∧ (1 : ℚ) / 2 ≠ 1 := by
  have h1 : ("A1".data.filter Char.isUpper).length = 1 := by decide
  have h2 : "A1".data.length = 2 := by decide
  have h3 : ("A1".data.filter (fun c => c.isUpper || c.isLower)).length = 1 := by decide
  refine ⟨?_, ?_, by norm_num⟩
  · unfold capsRatio
    rw [if_neg (by decide : ¬("A1" : String) = ""), h1, h2]
    norm_num
  · unfold capsRatioCased
    rw [if_neg (by decide : ¬("A1" : String) = ""), h1, h3]
    norm_num

/-- C10 amended: caps_ratio is the uppercase character count divided by the total
character count of the original body, all characters counted in the denominator,
and 0 for the empty body; the value always lies between 0 and 1. -/
theorem caps_ratio_total_chars (m : String) :
    capsRatio m =
      (if m = "" then 0
       else ((m.data.filter Char.isUpper).length : ℚ) / (m.data.length : ℚ)) ∧
    0 ≤ capsRatio m ∧ capsRatio m ≤ 1 := by
  refine ⟨rfl, ?_, ?_⟩ <;> unfold capsRatio <;> split
  · exact le_refl 0
  · positivity
  · exact zero_le_one
  · rename_i h
    have hlen : 0 < (m.data.length : ℚ) := by
      have := string_data_ne_nil h
      have : 0 < m.data.length := List.length_pos.mpr this
      exact_mod_cast this
    rw [div_le_one hlen]
    exact_mod_cast List.length_filter_le _ _

/-- C8 counterexample: with raw labels Alice, System, Zed the sorted order is
Alice, System, Zed and the enumeration index advances on the reserved System
label, so Zed receives User_03; the claimed numbering that skips reserved labels
would give Zed User_02. -/
theorem anonymize_numbering_cex :
    anonymizeParticipants ["Alice", "System", "Zed"] =
      [("Alice", "User_01"), ("System", "System"), ("Zed", "User_03")] ∧
    (("Zed", "User_03") : String × String) ≠ ("Zed", "User_02") := by
  exact ⟨by decide, by decide⟩

/-- C8 amended: build_map sorts the deduplicated labels, maps each reserved label
(case-insensitively System or Group Notification) to itself, and maps the label at
enumeration index i of the full sorted list to User_ with i+1 zero-padded to two
digits; reserved labels consume an enumeration index rather than being skipped in
the numbering. -/
theorem anonymize_enumeration (xs : List String) (i : Nat) (p : String)
    (h : (sortedSet xs).get? i = some p) :
    (anonymizeParticipants xs).get? i =
      some (p, if isReservedLabel p then p else userTag (i + 1)) := by
  unfold anonymizeParticipants
  rw [List.get?_map, List.get?_enum, h]
  rfl

/-- C8 witness: the amended enumeration statement applied at the concrete label
set of the counterexample. -/
theorem anonymize_enumeration_witness :
    (sortedSet ["Alice", "System", "Zed"]).get? 2 = some "Zed" ∧
    (anonymizeParticipants ["Alice", "System", "Zed"]).get? 2 =
      some ("Zed", userTag 3) := by
  refine ⟨by decide, ?_⟩
  have h := anonymize_enumeration ["Alice", "System", "Zed"] 2 "Zed" (by decide)
  rw [h, if_neg (by decide)]

/-- C7: build_map is a function of the set of raw labels alone: two label lists
with the same underlying set, whatever the order and duplication, produce the
identical anonymization mapping, because the source sorts the deduplicated
labels before enumerating. -/
theorem anonymization_stable (xs ys : List String) (h : xs.toFinset = ys.toFinset) :
    anonymizeParticipants xs = anonymizeParticipants ys := by
  unfold anonymizeParticipants
  rw [sortedSet_congr h]

/-- C7 witness: the stability statement applied to two concrete lists with the
same label set in different order and multiplicity. -/
theorem anonymization_stable_witness :
    (["b", "a", "a"] : List String).toFinset = (["a", "b"] : List String).toFinset ∧
    anonymizeParticipants ["b", "a", "a"] = anonymizeParticipants ["a", "b"] := by
  exact ⟨by decide, anonymization_stable _ _ (by decide)⟩

/-- C2 counterexample: the media-omission marker is itself an entry of the
system-pattern catalog, so the classifier assigns kind system, not media, to a
body consisting of the marker. -/
theorem media_omitted_kind_cex :
    classifyType "<Media omitted>" = MsgType.system ∧ MsgType.system ≠ MsgType.media := by
  exact ⟨by decide, by decide⟩

/-- C2 amended: a parsed line whose extracted body is the media-omission marker is
classified as kind system (the marker is in the system catalog, so the system
branch fires before the media branch) with its username forced to System; the row
survives the loop, hence is counted in total_messages, and because the
orchestration task collects sentiment scores only for usernames in the
participant map, which never contains System, the row contributes no sentiment
score to aggregation. -/
theorem media_omitted_processing (chunk dateStr : String) (ts : DateTime)
    (hts : parseDatetime dateStr = some ts)
    (hbody : (extractUserAndMessage chunk).2 = "<Media omitted>") :
    processPair (chunk, dateStr) =
      some ⟨ts, "System", MsgType.system, "<Media omitted>"⟩ ∧
    (∀ pairs : List (String × String), (chunk, dateStr) ∈ pairs →
      (⟨ts, "System", MsgType.system, "<Media omitted>"⟩ : Row) ∈ processedRows pairs) ∧
    (∀ mapping : List (String × String), "System" ∉ sentimentParticipants mapping) := by
  have hpp : processPair (chunk, dateStr) =
      some ⟨ts, "System", MsgType.system, "<Media omitted>"⟩ := by
    unfold processPair
    rw [show ((chunk, dateStr).2) = dateStr from rfl, hts]
    simp only [show ((chunk, dateStr).1) = chunk from rfl, hbody]
    rw [if_neg (by decide : ¬pyStrip "<Media omitted>" = "")]
    rw [if_pos (by decide : isSystemMessage "<Media omitted>" = true)]
    rw [show classifyType "<Media omitted>" = MsgType.system from by decide]
  refine ⟨hpp, ?_, ?_⟩
  · intro pairs hmem
    unfold processedRows
    exact List.mem_filterMap.mpr ⟨(chunk, dateStr), hmem, hpp⟩
  · intro mapping hmem
    rcases List.mem_map.mp hmem with ⟨kv, hkv, hfst⟩
    have hne := (List.mem_filter.mp hkv).2
    simp only [decide_eq_true_eq] at hne
    exact hne hfst

/-- C2 witness: the amended statement applied to a concrete chunk and timestamp. -/
theorem media_omitted_processing_witness :
    parseDatetime "12/25/2023, 10:30" = some ⟨2023, 12, 25, 10, 30, 0⟩ ∧
    (extractUserAndMessage "John: <Media omitted>").2 = "<Media omitted>" ∧
    processPair ("John: <Media omitted>", "12/25/2023, 10:30") =
      some ⟨⟨2023, 12, 25, 10, 30, 0⟩, "System", MsgType.system, "<Media omitted>"⟩ := by
  refine ⟨by decide, by decide, (media_omitted_processing _ _ _ (by decide) (by decide)).1⟩

lemma textblobAnalyze_label (tblib : String → ℚ × ℚ) (text : String) :
    (textblobAnalyze tblib text).label =
      textblobLabel ((textblobAnalyze tblib text).score) := by
  unfold textblobAnalyze
  by_cases hs : pyStrip text = ""
  · rw [if_pos hs]
    show Label.neutral = textblobLabel 0
    unfold textblobLabel
    rw [if_neg (by norm_num), if_neg (by norm_num)]
  · rw [if_neg hs]

lemma vaderAnalyze_label (vlib : String → ℚ) (text : String) :
    (vaderAnalyze vlib text).label = vaderLabel ((vaderAnalyze vlib text).score) := by
  unfold vaderAnalyze
  by_cases hs : pyStrip text = ""
  · rw [if_pos hs]
    show Label.neutral = vaderLabel 0
    unfold vaderLabel
    rw [if_neg (by norm_num), if_neg (by norm_num)]
  · rw [if_neg hs]

lemma textblobLabel_spec (q : ℚ) :
    (q > 1 / 10 → textblobLabel q = Label.positive) ∧
    (q < -(1 / 10) → textblobLabel q = Label.negative) ∧
    (-(1 / 10) ≤ q → q ≤ 1 / 10 → textblobLabel q = Label.neutral) := by
  unfold textblobLabel
  split_ifs with h1 h2 <;>
    refine ⟨fun h => ?_, fun h => ?_, fun ha hb => ?_⟩ <;>
    first
      | rfl
      | linarith

lemma vaderLabel_spec (q : ℚ) :
    (q ≥ 5 / 100 → vaderLabel q = Label.positive) ∧
    (q ≤ -(5 / 100) → vaderLabel q = Label.negative) ∧
    (-(5 / 100) < q → q < 5 / 100 → vaderLabel q = Label.neutral) := by
  unfold vaderLabel
  split_ifs with h1 h2 <;>
    refine ⟨fun h => ?_, fun h => ?_, fun ha hb => ?_⟩ <;>
    first
      | rfl
      | linarith

/-- C1 counterexample: with a lexicon compound score of 0.07, which lies inside
the band where the claimed uniform thresholds demand a neutral label, the VADER
analyzer labels the text positive, because its own cutoffs are 0.05 with
non-strict comparisons. -/
theorem vader_threshold_cex :
    (vaderAnalyze (fun _ => 7 / 100) "ok").score ≤ 1 / 10 ∧
    -(1 / 10) ≤ (vaderAnalyze (fun _ => 7 / 100) "ok").score ∧
    (vaderAnalyze (fun _ => 7 / 100) "ok").label ≠ Label.neutral := by
  have hvs : (vaderAnalyze (fun _ => (7 : ℚ) / 100) "ok").score = 7 / 100 := by
    unfold vaderAnalyze
    rw [if_neg (by decide : ¬pyStrip "ok" = "")]
  have hvl : (vaderAnalyze (fun _ => (7 : ℚ) / 100) "ok").label = vaderLabel (7 / 100) := by
    unfold vaderAnalyze
    rw [if_neg (by decide : ¬pyStrip "ok" = "")]
  have hpos : vaderLabel ((7 : ℚ) / 100) = Label.positive := by
    unfold vaderLabel
    rw [if_pos (by norm_num : (7 : ℚ) / 100 ≥ 5 / 100)]
  refine ⟨?_, ?_, ?_⟩
  · rw [hvs]
    norm_num
  · rw [hvs]
    norm_num
  · rw [hvl, hpos]
    decide

/-- C1 amended: the label of each rule-based scorer is determined by its returned
score through per-scorer thresholds.  TextBlob follows the uniform rule: score
above 0.1 is positive, below -0.1 negative, otherwise neutral.  VADER documents
its own cutoffs: score at least 0.05 is positive, at most -0.05 negative,
otherwise neutral.  The fusion label is the most frequent contributing label and
is not determined by the fused score. -/
theorem scorer_label_thresholds (vlib : String → ℚ) (tblib : String → ℚ × ℚ)
    (text : String) :
    ((textblobAnalyze tblib text).score > 1 / 10 →
      (textblobAnalyze tblib text).label = Label.positive) ∧
    ((textblobAnalyze tblib text).score < -(1 / 10) →
      (textblobAnalyze tblib text).label = Label.negative) ∧
    (-(1 / 10) ≤ (textblobAnalyze tblib text).score →
      (textblobAnalyze tblib text).score ≤ 1 / 10 →
      (textblobAnalyze tblib text).label = Label.neutral) ∧
    ((vaderAnalyze vlib text).score ≥ 5 / 100 →
      (vaderAnalyze vlib text).label = Label.positive) ∧
    ((vaderAnalyze vlib text).score ≤ -(5 / 100) →
      (vaderAnalyze vlib text).label = Label.negative) ∧
    (-(5 / 100) < (vaderAnalyze vlib text).score →
      (vaderAnalyze vlib text).score < 5 / 100 →
      (vaderAnalyze vlib text).label = Label.neutral) := by
  rw [textblobAnalyze_label tblib text, vaderAnalyze_label vlib text]
  rcases textblobLabel_spec ((textblobAnalyze tblib text).score) with ⟨t1, t2, t3⟩
  rcases vaderLabel_spec ((vaderAnalyze vlib text).score) with ⟨v1, v2, v3⟩
  exact ⟨t1, t2, t3, v1, v2, v3⟩

/-- C1 witness: the per-scorer threshold statement applied at concrete library
outputs of one half, forcing both labels positive. -/
theorem scorer_label_thresholds_witness :
    (textblobAnalyze (fun _ => (1 / 2, 1 / 4)) "ok").label = Label.positive ∧
    (vaderAnalyze (fun _ => 1 / 2) "ok").label = Label.positive := by
  have hts : (textblobAnalyze (fun _ => ((1 : ℚ) / 2, 1 / 4)) "ok").score = 1 / 2 := by
    unfold textblobAnalyze
    rw [if_neg (by decide : ¬pyStrip "ok" = "")]
  have hvs : (vaderAnalyze (fun _ => (1 : ℚ) / 2) "ok").score = 1 / 2 := by
    unfold vaderAnalyze
    rw [if_neg (by decide : ¬pyStrip "ok" = "")]
  constructor
  · exact (scorer_label_thresholds (fun _ => 1 / 2) (fun _ => (1 / 2, 1 / 4)) "ok").1
      (by rw [hts]; norm_num)
  · exact (scorer_label_thresholds (fun _ => 1 / 2) (fun _ => (1 / 2, 1 / 4)) "ok").2.2.2.1
      (by rw [hvs]; norm_num)

/-- C3 counterexample: for the nonempty text Bonjour in the unsupported language
fr no pool member contributes, and analyze_text leaves the ensemble_sentiment
dictionary empty instead of returning the neutral empty verdict of score 0,
neutral label and confidence 0. -/
theorem zero_contributors_cex :
    contributingResults zeroPool "Bonjour" "fr" = [] ∧
    analyzeTextEnsemble [Label.positive, Label.negative, Label.neutral] zeroPool
      "Bonjour" "fr" = none := by
  exact ⟨rfl, rfl⟩

/-- C3 amended: empty text yields the neutral empty verdict of _empty_result with
score 0, neutral label, confidence 0 and no agreement key; nonempty text for
which zero scorers contribute yields no ensemble verdict at all (the
ensemble_sentiment dictionary stays empty); in both cases the function is total,
so no error is signalled. -/
theorem empty_and_unsupported_ensemble (sigma : List Label)
    (pool : List PoolAnalyzer) (language : String) :
    analyzeTextEnsemble sigma pool "" language = some ⟨0, Label.neutral, 0, none⟩ ∧
    (∀ text : String, text ≠ "" → contributingResults pool text language = [] →
      analyzeTextEnsemble sigma pool text language = none) := by
  constructor
  · unfold analyzeTextEnsemble
    rw [if_pos rfl]
  · intro text ht hc
    unfold analyzeTextEnsemble
    rw [if_neg ht, hc]

/-- C3 witness: the amended statement applied to the concrete pool with constant
zero library outputs, at the empty text and at a nonempty German text no pool
member supports. -/
theorem empty_and_unsupported_ensemble_witness :
    analyzeTextEnsemble [Label.positive, Label.negative, Label.neutral] zeroPool
      "" "en" = some ⟨0, Label.neutral, 0, none⟩ ∧
    analyzeTextEnsemble [Label.positive, Label.negative, Label.neutral] zeroPool
      "Hallo" "de" = none := by
  exact ⟨(empty_and_unsupported_ensemble _ _ _).1,
    (empty_and_unsupported_ensemble _ _ _).2 "Hallo" (by decide) rfl⟩

/-- C9: extract_messages_and_dates returns two sequences of equal length for
every input and format; each is a prefix of the corresponding raw extraction
result (the split pieces after dropping the first, and the findall captures),
truncated to the shorter raw length with the excess discarded, and the function
is total, so no input raises an error. -/
theorem extract_equal_lengths (text : String) (fmt : ExportFormat) :
    (extractMessagesAndDates text fmt).1.length =
      (extractMessagesAndDates text fmt).2.length ∧
    List.IsPrefix (extractMessagesAndDates text fmt).1
      ((reSplitParts fmt text).drop 1) ∧
    List.IsPrefix (extractMessagesAndDates text fmt).2 (reFindall fmt text) ∧
    (extractMessagesAndDates text fmt).1.length =
      min ((reSplitParts fmt text).drop 1).length (reFindall fmt text).length := by
  unfold extractMessagesAndDates
  refine ⟨?_, List.take_prefix _ _, List.take_prefix _ _, ?_⟩ <;>
    simp only [List.length_take] <;> omega

/-- C4: the preprocess pipeline succeeds exactly when at least one zipped
(message chunk, date string) pair is valid, that is survives the loop with a
parsed timestamp and a nonempty stripped body; malformed pairs are dropped
without aborting, and on success the returned rows are exactly the accumulated
valid rows. -/
theorem parser_failure_iff_no_valid (text : String) :
    (preprocessSuccess text = true ↔
      ∃ p ∈ pairsOf text, (processPair p).isSome = true) ∧
    (preprocessFull text).toOption.getD (processedRows (pairsOf text)) =
      processedRows (pairsOf text) := by
  rcases hm : (extractMessagesAndDates text (detectFormat text)).1 with _ | ⟨m, ms⟩
  · have h1 : preprocessFull text = Except.error "No messages found in the chat file" := by
      simp only [preprocessFull, hm]
    have h2 : pairsOf text = [] := by
      simp [pairsOf, hm]
    constructor
    · simp [preprocessSuccess, h1, h2]
    · rw [h1]
      rfl
  · have hp : pairsOf text =
        (m :: ms).zip (extractMessagesAndDates text (detectFormat text)).2 := by
      simp only [pairsOf, hm]
    rcases hr : processedRows
        ((m :: ms).zip (extractMessagesAndDates text (detectFormat text)).2)
      with _ | ⟨r, rs⟩
    · have h1 : preprocessFull text =
          Except.error "No valid messages found after preprocessing" := by
        simp only [preprocessFull, hm, hr]
      have h2 : ¬∃ p ∈ pairsOf text, (processPair p).isSome = true := by
        rw [← processedRows_ne_nil_iff, hp, hr]
        simp
      constructor
      · simp [preprocessSuccess, h1, h2]
      · rw [h1]
        rfl
    · have h1 : preprocessFull text = Except.ok (r :: rs) := by
        simp only [preprocessFull, hm, hr]
      have h2 : ∃ p ∈ pairsOf text, (processPair p).isSome = true := by
        rw [← processedRows_ne_nil_iff, hp, hr]
        simp
      constructor
      · simp [preprocessSuccess, h1, h2]
      · rw [h1, hp, hr]
        rfl

lemma foldl_pyMaxStep_spec (labels : List Label) :
    ∀ (cs : List Label) (b : Label),
      ∃ m, cs.foldl (pyMaxStep labels) (some b) = some m ∧
        (m = b ∨ m ∈ cs) ∧ labels.count b ≤ labels.count m ∧
        ∀ c ∈ cs, labels.count c ≤ labels.count m := by
  intro cs
  induction cs with
  | nil =>
    intro b
    exact ⟨b, rfl, Or.inl rfl, le_refl _, by simp⟩
  | cons c cs ih =>
    intro b
    rw [List.foldl_cons]
    by_cases hcb : labels.count c > labels.count b
    · rw [show pyMaxStep labels (some b) c = some c from by simp [pyMaxStep, hcb]]
      rcases ih c with ⟨m, h1, h2, h3, h4⟩
      refine ⟨m, h1, ?_, le_trans (le_of_lt hcb) h3, ?_⟩
      · rcases h2 with h | h
        · exact Or.inr (h ▸ List.mem_cons_self _ _)
        · exact Or.inr (List.mem_cons_of_mem _ h)
      · intro x hx
        rcases List.mem_cons.mp hx with rfl | hx
        · exact h3
        · exact h4 x hx
    · rw [show pyMaxStep labels (some b) c = some b from by simp [pyMaxStep, hcb]]
      rcases ih b with ⟨m, h1, h2, h3, h4⟩
      refine ⟨m, h1, ?_, h3, ?_⟩
      · rcases h2 with h | h
        · exact Or.inl h
        · exact Or.inr (List.mem_cons_of_mem _ h)
      · intro x hx
        rcases List.mem_cons.mp hx with rfl | hx
        · exact le_trans (Nat.le_of_not_lt hcb) h3
        · exact h4 x hx

/-- C6 counterexample: whatever the set iteration order over the three label
values, the fused label of the tied registration-order lists positive-negative
and negative-positive is the same label in both cases, since the computation
max over set(labels) depends only on the label set and the counts; the claimed
tie-break would demand positive for the first list and negative for the second,
so no iteration order realises it. -/
theorem fusion_tiebreak_cex :
    (allLabelOrders.all (fun sigma =>
      !(decide (ensembleLabelWith sigma [Label.positive, Label.negative] =
          some Label.positive) &&
        decide (ensembleLabelWith sigma [Label.negative, Label.positive] =
          some Label.negative)))) = true := by
  decide

/-- C6 amended: for every set iteration order covering the three label values and
every nonempty contributing label list, the fused label exists, occurs among the
contributing labels, and attains the maximal count, so it is a most frequent
label; which of several tied maximal labels is returned depends on the set
iteration order of the label strings, not on pool-registration order. -/
theorem fusion_label_most_frequent (sigma ls : List Label)
    (hp : Label.positive ∈ sigma) (hn : Label.negative ∈ sigma)
    (hu : Label.neutral ∈ sigma) (hne : ls ≠ []) :
    (ensembleLabelWith sigma ls).isSome = true ∧
    (ensembleLabelWith sigma ls).getD Label.neutral ∈ ls ∧
    ∀ l ∈ ls, ls.count l ≤ ls.count ((ensembleLabelWith sigma ls).getD Label.neutral) := by
  have hmem : ∀ l : Label, l ∈ sigma := by
    intro l
    cases l <;> assumption
  have hcand : ∀ l, l ∈ pySetIter sigma ls ↔ l ∈ ls := by
    intro l
    unfold pySetIter
    rw [List.mem_filter]
    simp [hmem l]
  rcases hc : pySetIter sigma ls with _ | ⟨c, cs⟩
  · rcases List.exists_mem_of_ne_nil ls hne with ⟨x, hx⟩
    have hx2 := (hcand x).mpr hx
    rw [hc] at hx2
    simp at hx2
  · rcases foldl_pyMaxStep_spec ls cs c with ⟨m, h1, h2, h3, h4⟩
    have heq : ensembleLabelWith sigma ls = some m := by
      unfold ensembleLabelWith maxByCountFirst
      rw [hc, List.foldl_cons]
      exact h1
    have hmls : m ∈ ls := by
      rcases h2 with rfl | h
      · exact (hcand m).mp (hc ▸ List.mem_cons_self _ _)
      · exact (hcand m).mp (hc ▸ List.mem_cons_of_mem _ h)
    refine ⟨by rw [heq]; rfl, by rw [heq]; exact hmls, ?_⟩
    intro l hl
    rw [heq]
    show ls.count l ≤ ls.count m
    have hcl := (hcand l).mpr hl
    rw [hc] at hcl
    rcases List.mem_cons.mp hcl with rfl | hcl
    · exact h3
    · exact h4 l hcl

/-- C6 witness: the amended statement applied to a concrete order and the
contributing label list positive, negative, positive. -/
theorem fusion_label_most_frequent_witness :
    (ensembleLabelWith [Label.positive, Label.negative, Label.neutral]
      [Label.positive, Label.negative, Label.positive]).isSome = true ∧
    [Label.positive, Label.negative, Label.positive].count Label.negative ≤
      [Label.positive, Label.negative, Label.positive].count
        ((ensembleLabelWith [Label.positive, Label.negative, Label.neutral]
          [Label.positive, Label.negative, Label.positive]).getD Label.neutral) := by
  have h := fusion_label_most_frequent
    [Label.positive, Label.negative, Label.neutral]
    [Label.positive, Label.negative, Label.positive]
    (by decide) (by decide) (by decide) (by decide)
  exact ⟨h.1, h.2.2 Label.negative (by decide)⟩

lemma sum_sq_dev (μ : ℚ) (l : List ℚ) :
    (l.map (fun x => (x - μ) ^ 2)).sum =
      (l.map (fun x => x ^ 2)).sum - 2 * μ * l.sum + l.length * μ ^ 2 := by
  induction l with
  | nil => simp
  | cons a t ih =>
    simp only [List.map_cons, List.sum_cons, List.length_cons, ih]
    push_cast
    ring

lemma npVariance_eq (l : List ℚ) (h : l ≠ []) :
    npVariance l =
      (l.map (fun x => x ^ 2)).sum / l.length - (l.sum / l.length) ^ 2 := by
  have hn : (l.length : ℚ) ≠ 0 := by
    have hpos : 0 < l.length := List.length_pos.mpr h
    exact_mod_cast hpos.ne'
  unfold npVariance npMean
  rw [sum_sq_dev]
  field_simp
  ring

lemma npStd_eq_spec (l : List ℚ) (h : l ≠ []) : npStd l = popStddevSpec l := by
  unfold npStd popStddevSpec
  rw [npVariance_eq l h]

/-- C5: for every nonempty contributing verdict list the fused ensemble score is
the arithmetic mean of the contributing scores, and the fused confidence is one
minus the population standard deviation of the scores clipped at one, the
standard deviation taken in its textbook mean-of-squares form. -/
theorem fusion_mean_and_stddev_confidence (sigma : List Label)
    (pool : List PoolAnalyzer) (text language : String) (htext : text ≠ "")
    (hc : contributingResults pool text language ≠ []) :
    (analyzeTextEnsemble sigma pool text language).map EnsembleSentiment.score =
      some (((contributingResults pool text language).map SentimentResult.score).sum /
        ((contributingResults pool text language).map SentimentResult.score).length) ∧
    (analyzeTextEnsemble sigma pool text language).map EnsembleSentiment.confidence =
      some (1 - min (popStddevSpec
        ((contributingResults pool text language).map SentimentResult.score)) 1) := by
  rcases h : contributingResults pool text language with _ | ⟨r, rs⟩
  · exact absurd h hc
  · have hne : ((r :: rs).map SentimentResult.score) ≠ [] := by simp
    have hval : analyzeTextEnsemble sigma pool text language =
        some ⟨npMean ((r :: rs).map SentimentResult.score),
          (ensembleLabelWith sigma ((r :: rs).map SentimentResult.label)).getD Label.neutral,
          1 - min (npStd ((r :: rs).map SentimentResult.score)) 1,
          some (decide (((r :: rs).map SentimentResult.label).dedup.length = 1))⟩ := by
      unfold analyzeTextEnsemble
      rw [if_neg htext, h]
    rw [hval]
    constructor
    · rfl
    · show some (1 - min (npStd ((r :: rs).map SentimentResult.score)) 1) = _
      rw [npStd_eq_spec _ hne]

/-- C5 witness: the fusion statement applied to the concrete baseline pool with
constant zero library outputs on a supported language. -/
theorem fusion_mean_and_stddev_confidence_witness :
    (analyzeTextEnsemble [Label.positive, Label.negative, Label.neutral] zeroPool
        "hi" "en").map EnsembleSentiment.score =
      some (((contributingResults zeroPool "hi" "en").map SentimentResult.score).sum /
        ((contributingResults zeroPool "hi" "en").map SentimentResult.score).length) ∧
    (analyzeTextEnsemble [Label.positive, Label.negative, Label.neutral] zeroPool
        "hi" "en").map EnsembleSentiment.confidence =
      some (1 - min (popStddevSpec
        ((contributingResults zeroPool "hi" "en").map SentimentResult.score)) 1) := by
  refine fusion_mean_and_stddev_confidence _ _ _ _ (by decide) ?_
  intro hcontra
  have h2 : (contributingResults zeroPool "hi" "en").length = 2 := rfl
  rw [hcontra] at h2
  simp at h2

end WhatsApp
